import Mathlib

/-!
Verification of the recipe-hub backend (`src/recipe_backend/src/api/`).

The Python/SQLAlchemy service is shallowly embedded: each ORM table from
`models.py` becomes a structure, the database is a record of row lists, and
each route handler from `auth.py` / `recipes.py` becomes a pure function from
the database (plus request data) to a result and, for writes, an updated
database.  Python string primitives (`strip`, `lower`, `split(",")`,
`isdigit`, `int`) are modelled over `List Char` so that every definition is
executable by the kernel; the models are faithful for the ASCII inputs the
service compares.
-/

namespace RecipeHub

/-- Python `value.strip()`: drop whitespace from both ends (ASCII model). -/
def pyStrip (s : String) : String :=
  ⟨((s.data.dropWhile Char.isWhitespace).reverse.dropWhile Char.isWhitespace).reverse⟩

/-- Python `value.lower()` and SQL `lower(...)` (ASCII model). -/
def pyLower (s : String) : String :=
  ⟨s.data.map Char.toLower⟩

/-- Auxiliary comma splitter over characters, keeping empty segments. -/
def splitCommaAux : List Char → List Char → List (List Char)
  | [], acc => [acc.reverse]
  | c :: cs, acc =>
    if c = ',' then acc.reverse :: splitCommaAux cs [] else splitCommaAux cs (c :: acc)

/-- Python `s.split(",")`: split on every comma, keeping empty segments. -/
def pySplitComma (s : String) : List String :=
  (splitCommaAux s.data []).map String.mk

/-- Python `s.isdigit()` (ASCII model): nonempty and all characters digits. -/
def pyIsDigit (s : String) : Bool :=
  !s.data.isEmpty && s.data.all Char.isDigit

/-- Python `int(s)` on a digit string: decimal value of the digits. -/
def pyInt (s : String) : Nat :=
  s.data.foldl (fun n c => n * 10 + (c.toNat - 48)) 0

/-! ## Data model (`models.py`) -/

/-- Row of table `users` (`models.py`, class `User`). -/
structure User where
  id : Nat
  email : String
  hashed_password : String
  full_name : Option String
  is_active : Bool
  is_superuser : Bool
  created_at : Nat
  updated_at : Nat
deriving Repr, DecidableEq

/-- Row of table `recipes` (`models.py`, class `Recipe`). -/
structure Recipe where
  id : Nat
  title : String
  description : Option String
  instructions : Option String
  image_url : Option String
  prep_time_minutes : Option Int
  cook_time_minutes : Option Int
  servings : Option Int
  is_public : Bool
  author_id : Option Nat
  created_at : Nat
  updated_at : Nat
deriving Repr, DecidableEq

/-- Row of table `recipe_ingredients` (`models.py`, class `RecipeIngredient`). -/
structure RecipeIngredient where
  id : Nat
  recipe_id : Nat
  name : String
  quantity : Option String
  created_at : Nat
deriving Repr, DecidableEq

/-- Row of table `favorites` (`models.py`, class `Favorite`).
    The table carries `UniqueConstraint("user_id", "recipe_id")`. -/
structure Favorite where
  id : Nat
  user_id : Nat
  recipe_id : Nat
  created_at : Nat
deriving Repr, DecidableEq

/-- Row of table `notes` (`models.py`, class `Note`). -/
structure Note where
  id : Nat
  user_id : Nat
  recipe_id : Nat
  content : String
  created_at : Nat
  updated_at : Nat
deriving Repr, DecidableEq

/-- The relational database: one list of rows per table the claims touch. -/
structure DB where
  users : List User
  recipes : List Recipe
  recipe_ingredients : List RecipeIngredient
  favorites : List Favorite
  notes : List Note
deriving Repr, DecidableEq

/-! ## Recipe queries (`recipes.py`) -/

/-- `_normalize_ingredient` (`recipes.py` lines 118-120):
    `value.strip().lower()`. -/
def _normalize_ingredient (value : String) : String :=
  pyLower (pyStrip value)

/-- `ORDER BY created_at DESC`, modelled deterministically: larger
    `created_at` first. -/
def createdDesc (a b : Recipe) : Prop :=
  b.created_at ≤ a.created_at

instance : DecidableRel createdDesc :=
  fun a b => Nat.decLe b.created_at a.created_at

instance : IsTotal Recipe createdDesc :=
  ⟨fun a b => Nat.le_total b.created_at a.created_at⟩

instance : IsTrans Recipe createdDesc :=
  ⟨fun _ _ _ hab hbc => Nat.le_trans hbc hab⟩

/-- `.order_by(Recipe.created_at.desc())`, as a stable insertion sort. -/
def sortByCreatedDesc (rs : List Recipe) : List Recipe :=
  rs.insertionSort createdDesc

/-- `list_recipes` (`recipes.py` lines 159-173): public recipes, newest
    first, `OFFSET offset` then `LIMIT limit`. -/
def list_recipes (db : DB) (limit offset : Nat) : List Recipe :=
  ((sortByCreatedDesc (db.recipes.filter (fun r => r.is_public))).drop offset).take limit

/-- `get_recipe` (`recipes.py` lines 182-199): public recipe by id or 404. -/
def get_recipe (db : DB) (recipe_id : Nat) : Option Recipe :=
  match db.recipes.find? (fun r => r.id == recipe_id) with
  | none => none
  | some r => if r.is_public then some r else none

/-- The retained tokens of `search_recipes_by_ingredients`
    (`recipes.py` line 231):
    `[p for p in (ingredients.split(",") if ingredients else []) if p.strip()]`. -/
def rawTokens (ingredients : String) : List String :=
  (if ingredients.data.isEmpty then [] else pySplitComma ingredients).filter
    (fun p => !(pyStrip p).data.isEmpty)

/-- The rows the grouped subquery (`recipes.py` lines 237-246) aggregates for
    one recipe id: ingredient rows of that recipe whose `lower(name)` is in
    the term list, projected to `lower(name)`. -/
def matchedNames (db : DB) (terms : List String) (rid : Nat) : List String :=
  (db.recipe_ingredients.filter
      (fun i => i.recipe_id == rid && terms.contains (pyLower i.name))).map
    (fun i => pyLower i.name)

/-- The `HAVING count(distinct lower(name)) == k` test of the subquery
    (`recipes.py` line 244) for one recipe id. -/
def havingClause (db : DB) (terms : List String) (k : Nat) (rid : Nat) : Bool :=
  (matchedNames db terms rid).dedup.length == k

/-- `search_recipes_by_ingredients` (`recipes.py` lines 212-257): blank token
    list short-circuits to `[]`; otherwise keep public recipes whose distinct
    matched lowered ingredient names number `len(set(terms))`, newest first,
    with `OFFSET`/`LIMIT`. -/
def search_recipes_by_ingredients (db : DB) (ingredients : String)
    (limit offset : Nat) : List Recipe :=
  let raw := rawTokens ingredients
  if raw.isEmpty then []
  else
    let terms := raw.map _normalize_ingredient
    let k := terms.dedup.length
    ((sortByCreatedDesc (db.recipes.filter
        (fun r => havingClause db terms k r.id && r.is_public))).drop offset).take limit

/-! ## Authentication (`auth.py`) -/

/-- Outcome of `register_user`: the 400 duplicate-email branch, the database
    `UNIQUE` violation on `users.email` that an insert of an already-present
    lowercased email raises at flush time, or the created row. -/
inductive RegisterOutcome
  | conflict
  | uniqueViolation
  | created (user : User) (db : DB)
deriving Repr, DecidableEq

/-- `register_user` (`auth.py` lines 153-182): reject when some stored email
    equals the submitted email verbatim, then insert the user with the
    lowercased email (`models.py` line 54 makes `users.email` unique, so a
    clashing insert surfaces as a constraint violation, not a 400). -/
def register_user (db : DB) (email password : String) (full_name : Option String)
    (hash : String → String) (newId now : Nat) : RegisterOutcome :=
  if db.users.any (fun u => u.email == email) then .conflict
  else if db.users.any (fun u => u.email == pyLower email) then .uniqueViolation
  else
    let user : User :=
      { id := newId, email := pyLower email, hashed_password := hash password,
        full_name := full_name, is_active := true, is_superuser := false,
        created_at := now, updated_at := now }
    .created user { db with users := db.users ++ [user] }

/-- Failure modes of login: 400 invalid credentials, 401 inactive user. -/
inductive LoginError
  | invalidCredentials
  | unauthorized
deriving Repr, DecidableEq

/-- The response of a successful login.  The JWT produced by
    `create_access_token` (`auth.py` lines 88-93) is modelled by the `sub`
    claim it embeds. -/
structure Token where
  access_token_subject : String
  token_type : String
deriving Repr, DecidableEq

/-- `login_for_access_token` (`auth.py` lines 196-223): lowercase and trim the
    submitted email, look the user up, check the password hash, check
    `is_active`, and issue a token whose subject is `str(user.id)`. -/
def login_for_access_token (db : DB) (username password : String)
    (verify : String → String → Bool) : Except LoginError Token :=
  let email := pyLower (pyStrip username)
  match db.users.find? (fun u => u.email == email) with
  | none => .error .invalidCredentials
  | some user =>
    if !(verify password user.hashed_password) then .error .invalidCredentials
    else if !user.is_active then .error .unauthorized
    else .ok { access_token_subject := toString user.id, token_type := "bearer" }

/-- The only failure of the authorization guard is HTTP 401. -/
inductive AuthError
  | unauthorized
deriving Repr, DecidableEq

/-- The subject-resolution block of `get_current_user` (`auth.py` lines
    127-133): numeric subjects are looked up by primary key; on a miss, or for
    non-numeric subjects, the lookup falls back to email equality. -/
def resolve_subject (db : DB) (subject : String) : Option User :=
  let byId : Option User :=
    if pyIsDigit subject then db.users.find? (fun u => u.id == pyInt subject)
    else none
  match byId with
  | some u => some u
  | none => db.users.find? (fun u => u.email == subject)

/-- `get_current_user` (`auth.py` lines 97-137).  `decoded` is the outcome of
    `jwt.decode` followed by `payload.get("sub")`: `none` for a decode
    failure, `some none` for a payload without subject, `some (some s)` for a
    decoded subject `s`. -/
def get_current_user (db : DB) (decoded : Option (Option String)) :
    Except AuthError User :=
  match decoded with
  | none => .error .unauthorized
  | some none => .error .unauthorized
  | some (some subject) =>
    match resolve_subject db subject with
    | none => .error .unauthorized
    | some user => if user.is_active then .ok user else .error .unauthorized

/-! ## Favorites and notes (`recipes.py`) -/

/-- Failure modes of the favorites/notes handlers: 404 and 409. -/
inductive ApiError
  | notFound
  | conflict
deriving Repr, DecidableEq

/-- `add_favorite` (`recipes.py` lines 298-320): 404 when the recipe id does
    not exist, 409 when the (user, recipe) favorite already exists, otherwise
    insert one favorite row. -/
def add_favorite (db : DB) (user : User) (recipe_id : Nat) (newId now : Nat) :
    Except ApiError (Favorite × DB) :=
  match db.recipes.find? (fun r => r.id == recipe_id) with
  | none => .error .notFound
  | some _ =>
    match db.favorites.find?
        (fun f => f.user_id == user.id && f.recipe_id == recipe_id) with
    | some _ => .error .conflict
    | none =>
      let fav : Favorite :=
        { id := newId, user_id := user.id, recipe_id := recipe_id, created_at := now }
      .ok (fav, { db with favorites := db.favorites ++ [fav] })

/-- `remove_favorite` (`recipes.py` lines 333-345): 404 when no (user, recipe)
    favorite exists, otherwise delete the found row. -/
def remove_favorite (db : DB) (user : User) (recipe_id : Nat) :
    Except ApiError DB :=
  match db.favorites.find?
      (fun f => f.user_id == user.id && f.recipe_id == recipe_id) with
  | none => .error .notFound
  | some _ =>
    .ok { db with favorites :=
            db.favorites.eraseP (fun f => f.user_id == user.id && f.recipe_id == recipe_id) }

/-- `get_note` (`recipes.py` lines 402-411): 404 when the note id is absent or
    the note is owned by someone else. -/
def get_note (db : DB) (user : User) (note_id : Nat) : Except ApiError Note :=
  match db.notes.find? (fun n => n.id == note_id) with
  | none => .error .notFound
  | some note =>
    if note.user_id != user.id then .error .notFound else .ok note

/-- `update_note` (`recipes.py` lines 421-434): same guard as `get_note`, then
    overwrite `content`; the ORM refreshes `updated_at` (`models.py` lines
    216-218, `onupdate`) at flush time, modelled by the `now` argument.
    Primary keys are unique, so replacing the row by id models the in-place
    mutation. -/
def update_note (db : DB) (user : User) (note_id : Nat) (content : String)
    (now : Nat) : Except ApiError (Note × DB) :=
  match db.notes.find? (fun n => n.id == note_id) with
  | none => .error .notFound
  | some note =>
    if note.user_id != user.id then .error .notFound
    else
      let note2 := { note with content := content, updated_at := now }
      .ok (note2,
        { db with notes := db.notes.map (fun m => if m.id == note_id then note2 else m) })

/-- `delete_note` (`recipes.py` lines 444-454): same guard as `get_note`, then
    delete the found row. -/
def delete_note (db : DB) (user : User) (note_id : Nat) : Except ApiError DB :=
  match db.notes.find? (fun n => n.id == note_id) with
  | none => .error .notFound
  | some note =>
    if note.user_id != user.id then .error .notFound
    else .ok { db with notes := db.notes.eraseP (fun n => n.id == note_id) }

/-! ## Shared helper lemmas -/

/-- In a list whose `f`-keys are pairwise distinct, `find?` on a key matched
    by a member returns exactly that member. -/
lemma find?_key_of_mem {α β : Type} [DecidableEq β] (f : α → β) :
    ∀ (l : List α), (l.map f).Nodup → ∀ x ∈ l, ∀ b, f x = b →
      l.find? (fun y => f y == b) = some x
  | [], _, x, hx, _, _ => absurd hx (List.not_mem_nil x)
  | a :: t, hN, x, hx, b, hb => by
    rw [List.map_cons, List.nodup_cons] at hN
    rcases List.mem_cons.mp hx with rfl | hxt
    · exact List.find?_cons_of_pos t (by simp [hb])
    · have hfa : ¬f a = b := by
        intro h
        exact hN.1 (by rw [h, ← hb]; exact List.mem_map_of_mem f hxt)
      rw [List.find?_cons_of_neg t (by simp [hfa])]
      exact find?_key_of_mem f t hN.2 x hxt b hb

/-- If no two members of a list satisfy `p`, then nothing left after
    `eraseP p` satisfies `p`. -/
lemma not_p_of_mem_eraseP {α : Type} (p : α → Bool) :
    ∀ (l : List α), l.Pairwise (fun a b => ¬(p a = true ∧ p b = true)) →
      ∀ x ∈ l.eraseP p, ¬p x = true
  | [], _, x, hx => by simp [List.eraseP] at hx
  | a :: t, hP, x, hx => by
    rcases List.pairwise_cons.mp hP with ⟨ha, ht⟩
    rw [List.eraseP_cons] at hx
    cases hpa : p a with
    | true =>
      rw [hpa] at hx
      simp only [cond_true] at hx
      exact fun hpx => ha x hx ⟨hpa, hpx⟩
    | false =>
      rw [hpa] at hx
      simp only [cond_false] at hx
      rcases List.mem_cons.mp hx with rfl | hx2
      · simp [hpa]
      · exact not_p_of_mem_eraseP p t ht x hx2

/-! ## Concrete databases used by witnesses and failing inputs -/

/-- The empty database. -/
def emptyDB : DB :=
  { users := [], recipes := [], recipe_ingredients := [], favorites := [], notes := [] }

/-- A minimal public recipe with the given id and creation time. -/
def plainRecipe (i t : Nat) : Recipe :=
  { id := i, title := "r", description := none, instructions := none,
    image_url := none, prep_time_minutes := none, cook_time_minutes := none,
    servings := none, is_public := true, author_id := none,
    created_at := t, updated_at := t }

/-- Public recipe whose only stored ingredient name carries surrounding
    whitespace. -/
def paddedTomatoDB : DB :=
  { users := [], recipes := [plainRecipe 1 0],
    recipe_ingredients :=
      [{ id := 1, recipe_id := 1, name := " Tomato ", quantity := none, created_at := 0 }],
    favorites := [], notes := [] }

/-- The deterministic hash used in concrete registration scenarios. -/
def hashTag (p : String) : String := p ++ "#h"

/-- The user row the first registration of `Alice@example.com` stores: the
    email is lowercased on insert (`auth.py` line 174). -/
def aliceRow : User :=
  { id := 1, email := "alice@example.com", hashed_password := hashTag "secret123",
    full_name := none, is_active := true, is_superuser := false,
    created_at := 0, updated_at := 0 }

/-- The database after that first registration. -/
def dbAliceStored : DB :=
  { users := [aliceRow], recipes := [], recipe_ingredients := [],
    favorites := [], notes := [] }

/-- A user row resolvable by the numeric subject `"1"`. -/
def guardUser : User :=
  { id := 1, email := "g@example.com", hashed_password := "h", full_name := none,
    is_active := true, is_superuser := false, created_at := 0, updated_at := 0 }

/-- Database holding only `guardUser`. -/
def dbGuard : DB :=
  { users := [guardUser], recipes := [], recipe_ingredients := [],
    favorites := [], notes := [] }

/-- An active user row for the login witness. -/
def bobRow : User :=
  { id := 7, email := "bob@example.com", hashed_password := "pw", full_name := none,
    is_active := true, is_superuser := false, created_at := 0, updated_at := 0 }

/-- Database holding only `bobRow`. -/
def dbBob : DB :=
  { users := [bobRow], recipes := [], recipe_ingredients := [],
    favorites := [], notes := [] }

/-- The acting user of the favorites witness. -/
def favUser : User :=
  { id := 3, email := "f@example.com", hashed_password := "h", full_name := none,
    is_active := true, is_superuser := false, created_at := 0, updated_at := 0 }

/-- The favorite row linking `favUser` to recipe 5. -/
def favRow : Favorite := { id := 9, user_id := 3, recipe_id := 5, created_at := 0 }

/-- Database with one user, one recipe and one favorite pair. -/
def dbFav : DB :=
  { users := [favUser], recipes := [plainRecipe 5 0], recipe_ingredients := [],
    favorites := [favRow], notes := [] }

/-- The owner of the witness note. -/
def ownerA : User :=
  { id := 1, email := "a@example.com", hashed_password := "h", full_name := none,
    is_active := true, is_superuser := false, created_at := 0, updated_at := 0 }

/-- A different user who must not see the note. -/
def readerB : User :=
  { id := 2, email := "b@example.com", hashed_password := "h", full_name := none,
    is_active := true, is_superuser := false, created_at := 0, updated_at := 0 }

/-- The note owned by `ownerA` on recipe 5. -/
def noteA : Note :=
  { id := 4, user_id := 1, recipe_id := 5, content := "mine",
    created_at := 0, updated_at := 0 }

/-- Database with both users, one recipe and `ownerA`'s note. -/
def dbNote : DB :=
  { users := [ownerA, readerB], recipes := [plainRecipe 5 0],
    recipe_ingredients := [], favorites := [], notes := [noteA] }

/-- Three public recipes with distinct creation times, stored out of order. -/
def dbThreePublic : DB :=
  { users := [], recipes := [plainRecipe 1 10, plainRecipe 3 30, plainRecipe 2 20],
    recipe_ingredients := [], favorites := [], notes := [] }

/-- A public recipe whose ingredients are Tomato, onion and basil. -/
def dbSalad : DB :=
  { users := [], recipes := [plainRecipe 1 10],
    recipe_ingredients :=
      [{ id := 1, recipe_id := 1, name := "Tomato", quantity := none, created_at := 0 },
       { id := 2, recipe_id := 1, name := "onion", quantity := none, created_at := 0 },
       { id := 3, recipe_id := 1, name := "basil", quantity := none, created_at := 0 }],
    favorites := [], notes := [] }

/-- The `HAVING` equality against `len(set(terms))` holds for a recipe id
    exactly when every term appears as the lowered name of one of that
    recipe's ingredient rows. -/
lemma havingClause_iff (db : DB) (terms : List String) (rid : Nat) :
    havingClause db terms terms.dedup.length rid = true ↔
      ∀ t ∈ terms, ∃ i ∈ db.recipe_ingredients, i.recipe_id = rid ∧ pyLower i.name = t := by
  have hsub : (matchedNames db terms rid).toFinset ⊆ terms.toFinset := by
    intro t ht
    rw [List.mem_toFinset] at ht
    rw [List.mem_toFinset]
    obtain ⟨i, hi, hlow⟩ := List.mem_map.mp ht
    have h2 := (List.mem_filter.mp hi).2
    simp only [Bool.and_eq_true, beq_iff_eq] at h2
    rw [← hlow]
    exact List.elem_iff.mp h2.2
  unfold havingClause
  rw [beq_iff_eq, ← List.card_toFinset, ← List.card_toFinset]
  constructor
  · intro hcard t ht
    have heq : (matchedNames db terms rid).toFinset = terms.toFinset :=
      Finset.eq_of_subset_of_card_le hsub (le_of_eq hcard.symm)
    have htM : t ∈ (matchedNames db terms rid).toFinset := by
      rw [heq, List.mem_toFinset]
      exact ht
    rw [List.mem_toFinset] at htM
    obtain ⟨i, hi, hlow⟩ := List.mem_map.mp htM
    have h1 := (List.mem_filter.mp hi).1
    have h2 := (List.mem_filter.mp hi).2
    simp only [Bool.and_eq_true, beq_iff_eq] at h2
    exact ⟨i, h1, h2.1, hlow⟩
  · intro h
    have hsup : terms.toFinset ⊆ (matchedNames db terms rid).toFinset := by
      intro t ht
      rw [List.mem_toFinset] at ht
      rw [List.mem_toFinset]
      obtain ⟨i, hi, hrid2, hlow⟩ := h t ht
      refine List.mem_map.mpr ⟨i, ?_, hlow⟩
      refine List.mem_filter.mpr ⟨hi, ?_⟩
      simp only [Bool.and_eq_true, beq_iff_eq]
      exact ⟨hrid2, by rw [hlow]; exact List.elem_iff.mpr ht⟩
    rw [Finset.Subset.antisymm hsub hsup]

/-! ## Claim theorems -/

/-- C8: for every ingredients query string whose comma-split tokens are all
    empty or whitespace-only (the empty string included), ingredient search
    returns the empty list and does not fail. -/
theorem search_blank_query_returns_empty (db : DB) (limit offset : Nat)
    (q : String) (hblank : ∀ p ∈ pySplitComma q, (pyStrip p).data.isEmpty = true) :
    search_recipes_by_ingredients db q limit offset = [] := by
  have hraw : rawTokens q = [] := by
    unfold rawTokens
    cases hq : q.data.isEmpty with
    | true => simp
    | false =>
      rw [if_neg (by simp [hq])]
      rw [List.filter_eq_nil_iff]
      intro p hp
      simp [hblank p hp]
  unfold search_recipes_by_ingredients
  simp [hraw]

/-- Witness for C8: the query `" , ,"` (all tokens blank) yields `[]` even on
    a database with recipes. -/
theorem search_blank_query_returns_empty_witness :
    search_recipes_by_ingredients paddedTomatoDB " , ," 50 0 = [] :=
  search_blank_query_returns_empty paddedTomatoDB 50 0 " , ," (by decide)

/-- C2 (failing input): the query token `"tomato"` and the stored name
    `" Tomato "` are equal once both are trimmed and lowercased, yet the
    search does not return the recipe, because the code lowercases the stored
    name without trimming it (`recipes.py` line 242) — against its own route
    description of whitespace-insensitive matching. -/
theorem search_misses_padded_stored_name :
    _normalize_ingredient " Tomato " = _normalize_ingredient "tomato"
    ∧ pyLower " Tomato " ≠ _normalize_ingredient "tomato"
    ∧ search_recipes_by_ingredients paddedTomatoDB "tomato" 50 0 = [] := by
  refine ⟨by decide, by decide, by decide⟩

/-- C3 (failing input): registering `"Alice@example.com"` twice stores
    `"alice@example.com"` the first time, and the second call does not hit
    the Conflict branch — the duplicate pre-check (`auth.py` line 168)
    compares the raw submitted email against the lowercased stored one — so
    its insert of the same lowercased email dies on the `users.email` unique
    constraint instead. -/
theorem register_mixed_case_duplicate_is_not_conflict :
    register_user emptyDB "Alice@example.com" "secret123" none hashTag 1 0
        = .created aliceRow dbAliceStored
    ∧ register_user dbAliceStored "Alice@example.com" "secret123" none hashTag 2 0
        = .uniqueViolation
    ∧ register_user dbAliceStored "Alice@example.com" "secret123" none hashTag 2 0
        ≠ .conflict := by
  refine ⟨by decide, by decide, by decide⟩

/-- C4: the authorization guard returns a user exactly when the token decoded
    with a subject and that subject resolves — by numeric id for numeric
    subjects, otherwise or on an id miss by email equality — to a user whose
    `is_active` is true; in every other case it fails with Unauthorized. -/
theorem get_current_user_spec (db : DB) (decoded : Option (Option String)) (u : User) :
    (get_current_user db decoded = .ok u ↔
      ∃ s, decoded = some (some s) ∧ resolve_subject db s = some u ∧ u.is_active = true)
    ∧ (get_current_user db decoded = .error .unauthorized ↔
        ∀ v, ¬get_current_user db decoded = .ok v)
    ∧ (∀ s, pyIsDigit s = true → ∀ v, db.users.find? (fun x => x.id == pyInt s) = some v →
        resolve_subject db s = some v)
    ∧ (∀ s, (pyIsDigit s = false ∨ db.users.find? (fun x => x.id == pyInt s) = none) →
        resolve_subject db s = db.users.find? (fun x => x.email == s)) := by
  refine ⟨?_, ?_, ?_, ?_⟩
  · rcases decoded with _ | os
    · simp [get_current_user]
    · rcases os with _ | s
      · simp [get_current_user]
      · cases hres : resolve_subject db s with
        | none => simp [get_current_user, hres]
        | some v =>
          cases hact : v.is_active with
          | true =>
            simp only [get_current_user, hres, hact, if_true]
            constructor
            · rintro h
              cases h
              exact ⟨s, rfl, hres, hact⟩
            · rintro ⟨s2, hs2, hres2, _⟩
              cases hs2
              rw [hres] at hres2
              cases hres2
              rfl
          | false =>
            simp only [get_current_user, hres, hact]
            constructor
            · intro h
              cases h
            · rintro ⟨s2, hs2, hres2, hact2⟩
              cases hs2
              rw [hres] at hres2
              cases hres2
              rw [hact] at hact2
              cases hact2
  · cases hg : get_current_user db decoded with
    | error e =>
      cases e
      simp
    | ok v =>
      constructor
      · intro h
        cases h
      · intro h
        exact absurd rfl (h v)
  · intro s hdig v hfind
    unfold resolve_subject
    simp [hdig, hfind]
  · intro s hmiss
    unfold resolve_subject
    rcases hmiss with hdig | hnone
    · simp [hdig]
    · cases hdig : pyIsDigit s <;> simp [hdig, hnone]

/-- Witness for C4: a token decoding to subject `"1"` authenticates the
    active user with id 1. -/
theorem get_current_user_spec_witness :
    get_current_user dbGuard (some (some "1")) = .ok guardUser :=
  ((get_current_user_spec dbGuard (some (some "1")) guardUser).1).mpr
    ⟨"1", rfl, by decide, rfl⟩

/-- C5: login normalizes the submitted email to trimmed lowercase; it fails
    `InvalidCredentials` when no user has that email or the password does not
    verify, fails `Unauthorized` when the user exists and verifies but is
    inactive, and otherwise returns a token whose subject is the stringified
    numeric id of the user with token type `"bearer"`. -/
theorem login_spec (db : DB) (username password : String)
    (verify : String → String → Bool) :
    (db.users.find? (fun x => x.email == pyLower (pyStrip username)) = none ↔
      ∀ x ∈ db.users, ¬x.email = pyLower (pyStrip username))
    ∧ (db.users.find? (fun x => x.email == pyLower (pyStrip username)) = none →
      login_for_access_token db username password verify = .error .invalidCredentials)
    ∧ ∀ u, db.users.find? (fun x => x.email == pyLower (pyStrip username)) = some u →
        ((verify password u.hashed_password = false →
          login_for_access_token db username password verify = .error .invalidCredentials)
        ∧ (verify password u.hashed_password = true → u.is_active = false →
          login_for_access_token db username password verify = .error .unauthorized)
        ∧ (verify password u.hashed_password = true → u.is_active = true →
          login_for_access_token db username password verify =
            .ok { access_token_subject := toString u.id, token_type := "bearer" })) := by
  refine ⟨?_, ?_, ?_⟩
  · rw [List.find?_eq_none]
    constructor
    · intro h x hx
      have := h x hx
      simpa using this
    · intro h x hx
      simpa using h x hx
  · intro hnone
    simp only [login_for_access_token]
    rw [hnone]
  · intro u hfind
    refine ⟨?_, ?_, ?_⟩
    · intro hv
      simp only [login_for_access_token]
      rw [hfind]
      simp [hv]
    · intro hv hact
      simp only [login_for_access_token]
      rw [hfind]
      simp [hv, hact]
    · intro hv hact
      simp only [login_for_access_token]
      rw [hfind]
      simp [hv, hact]

/-- Witness for C5: logging in with a padded, mixed-case email and the right
    password yields the bearer token for user id 7. -/
theorem login_spec_witness :
    login_for_access_token dbBob "  Bob@Example.COM " "pw" (fun p h => p == h)
      = .ok { access_token_subject := "7", token_type := "bearer" } := by
  have h := (login_spec dbBob "  Bob@Example.COM " "pw" (fun p h => p == h)).2.2
    bobRow (by decide)
  rw [h.2.2 (by decide) rfl]
  exact congrArg Except.ok (by decide)

/-- C6: on a database respecting the `(user_id, recipe_id)` unique constraint
    of `favorites`, adding a favorite fails NotFound when the recipe does not
    exist, fails Conflict when the pair already exists, and otherwise appends
    exactly one favorite row; removing fails NotFound when no pair exists, so
    removing the same pair twice fails NotFound the second time. -/
theorem favorites_add_remove_spec (db : DB) (user : User) (rid newId now : Nat)
    (huniq : db.favorites.Pairwise
      (fun a b => ¬(a.user_id = b.user_id ∧ a.recipe_id = b.recipe_id))) :
    ((∀ r ∈ db.recipes, ¬r.id = rid) →
        add_favorite db user rid newId now = .error .notFound)
    ∧ (∀ r ∈ db.recipes, r.id = rid →
        ((∃ f ∈ db.favorites, f.user_id = user.id ∧ f.recipe_id = rid) →
            add_favorite db user rid newId now = .error .conflict)
        ∧ ((∀ f ∈ db.favorites, ¬(f.user_id = user.id ∧ f.recipe_id = rid)) →
            ∃ fav db2, add_favorite db user rid newId now = .ok (fav, db2)
              ∧ fav.user_id = user.id ∧ fav.recipe_id = rid
              ∧ db2.favorites = db.favorites ++ [fav]
              ∧ db2.users = db.users ∧ db2.recipes = db.recipes
              ∧ db2.recipe_ingredients = db.recipe_ingredients
              ∧ db2.notes = db.notes))
    ∧ ((∀ f ∈ db.favorites, ¬(f.user_id = user.id ∧ f.recipe_id = rid)) →
        remove_favorite db user rid = .error .notFound)
    ∧ (∀ f ∈ db.favorites, f.user_id = user.id → f.recipe_id = rid →
        ∃ db2, remove_favorite db user rid = .ok db2
          ∧ remove_favorite db2 user rid = .error .notFound) := by
  have hfavNone : ∀ (l : List Favorite),
      (∀ f ∈ l, ¬(f.user_id = user.id ∧ f.recipe_id = rid)) →
      l.find? (fun f => f.user_id == user.id && f.recipe_id == rid) = none := by
    intro l h
    rw [List.find?_eq_none]
    intro f hf
    simpa using h f hf
  refine ⟨?_, ?_, ?_, ?_⟩
  · intro hno
    have hrec : db.recipes.find? (fun r => r.id == rid) = none := by
      rw [List.find?_eq_none]
      intro r hr
      simpa using hno r hr
    unfold add_favorite
    rw [hrec]
  · intro r hr hid
    have hrec : ∃ r0, db.recipes.find? (fun r => r.id == rid) = some r0 := by
      cases hfr : db.recipes.find? (fun r => r.id == rid) with
      | none =>
        exact absurd (by simpa using List.find?_eq_none.mp hfr r hr) (by simp [hid])
      | some r0 => exact ⟨r0, rfl⟩
    obtain ⟨r0, hr0⟩ := hrec
    constructor
    · rintro ⟨f, hf, hfu, hfr⟩
      have hfav : ∃ f0, db.favorites.find?
          (fun f => f.user_id == user.id && f.recipe_id == rid) = some f0 := by
        cases hff : db.favorites.find?
            (fun f => f.user_id == user.id && f.recipe_id == rid) with
        | none =>
          exact absurd (by simpa using List.find?_eq_none.mp hff f hf)
            (by simp [hfu, hfr])
        | some f0 => exact ⟨f0, rfl⟩
      obtain ⟨f0, hf0⟩ := hfav
      unfold add_favorite
      rw [hr0, hf0]
    · intro hnone
      unfold add_favorite
      rw [hr0, hfavNone db.favorites hnone]
      exact ⟨_, _, rfl, rfl, rfl, rfl, rfl, rfl, rfl, rfl⟩
  · intro hnone
    unfold remove_favorite
    rw [hfavNone db.favorites hnone]
  · intro f hf hfu hfr
    have hfav : ∃ f0, db.favorites.find?
        (fun f => f.user_id == user.id && f.recipe_id == rid) = some f0 := by
      cases hff : db.favorites.find?
          (fun f => f.user_id == user.id && f.recipe_id == rid) with
      | none =>
        exact absurd (by simpa using List.find?_eq_none.mp hff f hf)
          (by simp [hfu, hfr])
      | some f0 => exact ⟨f0, rfl⟩
    obtain ⟨f0, hf0⟩ := hfav
    refine ⟨_, by unfold remove_favorite; rw [hf0], ?_⟩
    unfold remove_favorite
    have hP : db.favorites.Pairwise (fun a b =>
        ¬((a.user_id == user.id && a.recipe_id == rid) = true
          ∧ (b.user_id == user.id && b.recipe_id == rid) = true)) := by
      refine huniq.imp ?_
      intro a b hab ⟨ha2, hb2⟩
      simp only [Bool.and_eq_true, beq_iff_eq] at ha2 hb2
      exact hab ⟨ha2.1.trans hb2.1.symm, ha2.2.trans hb2.2.symm⟩
    have herased := not_p_of_mem_eraseP
      (fun f => f.user_id == user.id && f.recipe_id == rid) db.favorites hP
    have : (db.favorites.eraseP
        (fun f => f.user_id == user.id && f.recipe_id == rid)).find?
        (fun f => f.user_id == user.id && f.recipe_id == rid) = none :=
      List.find?_eq_none.mpr herased
    rw [this]

/-- Witness for C6: removing the favorite pair (3, 5) succeeds once and fails
    NotFound the second time. -/
theorem favorites_add_remove_spec_witness :
    ∃ db2, remove_favorite dbFav favUser 5 = .ok db2
      ∧ remove_favorite db2 favUser 5 = .error .notFound :=
  (favorites_add_remove_spec dbFav favUser 5 99 1 (by decide)).2.2.2
    favRow (by decide) rfl rfl

/-- C7: on a database with unique note ids, each of get, update and delete on
    a note fails NotFound exactly when no note has that id or the note with
    that id is owned by another user; in particular a note of user A is
    indistinguishable from an absent note for user B. -/
theorem notes_ownership_spec (db : DB) (user : User) (nid : Nat)
    (content : String) (now : Nat)
    (hids : (db.notes.map (fun n => n.id)).Nodup) :
    ((get_note db user nid = .error .notFound ↔
        (∀ n ∈ db.notes, ¬n.id = nid)
          ∨ ∃ n ∈ db.notes, n.id = nid ∧ ¬n.user_id = user.id)
    ∧ (update_note db user nid content now = .error .notFound ↔
        (∀ n ∈ db.notes, ¬n.id = nid)
          ∨ ∃ n ∈ db.notes, n.id = nid ∧ ¬n.user_id = user.id)
    ∧ (delete_note db user nid = .error .notFound ↔
        (∀ n ∈ db.notes, ¬n.id = nid)
          ∨ ∃ n ∈ db.notes, n.id = nid ∧ ¬n.user_id = user.id))
    ∧ (∀ n ∈ db.notes, n.id = nid → ¬n.user_id = user.id →
        get_note db user nid = .error .notFound
        ∧ update_note db user nid content now = .error .notFound
        ∧ delete_note db user nid = .error .notFound) := by
  have H : (get_note db user nid = .error .notFound ↔
        (∀ n ∈ db.notes, ¬n.id = nid)
          ∨ ∃ n ∈ db.notes, n.id = nid ∧ ¬n.user_id = user.id)
      ∧ (update_note db user nid content now = .error .notFound ↔
        (∀ n ∈ db.notes, ¬n.id = nid)
          ∨ ∃ n ∈ db.notes, n.id = nid ∧ ¬n.user_id = user.id)
      ∧ (delete_note db user nid = .error .notFound ↔
        (∀ n ∈ db.notes, ¬n.id = nid)
          ∨ ∃ n ∈ db.notes, n.id = nid ∧ ¬n.user_id = user.id) := by
    cases hfind : db.notes.find? (fun n => n.id == nid) with
    | none =>
      have hall : ∀ n ∈ db.notes, ¬n.id = nid := by
        intro n hn h
        have := List.find?_eq_none.mp hfind n hn
        simp [h] at this
      refine ⟨?_, ?_, ?_⟩ <;>
        · refine iff_of_true ?_ (Or.inl hall)
          simp [get_note, update_note, delete_note, hfind]
    | some n0 =>
      have hmem := List.mem_of_find?_eq_some hfind
      have hid : n0.id = nid := by simpa using List.find?_some hfind
      by_cases hown : n0.user_id = user.id
      · have hrhsF : ¬((∀ n ∈ db.notes, ¬n.id = nid)
            ∨ ∃ n ∈ db.notes, n.id = nid ∧ ¬n.user_id = user.id) := by
          rintro (hall | ⟨m, hm, hmid, hmo⟩)
          · exact hall n0 hmem hid
          · have hmn : m = n0 :=
              List.inj_on_of_nodup_map hids hm hmem (by rw [hmid, hid])
            exact hmo (hmn ▸ hown)
        refine ⟨?_, ?_, ?_⟩ <;>
          · refine iff_of_false ?_ hrhsF
            simp [get_note, update_note, delete_note, hfind, hown]
      · have hrhsT : (∀ n ∈ db.notes, ¬n.id = nid)
            ∨ ∃ n ∈ db.notes, n.id = nid ∧ ¬n.user_id = user.id :=
          Or.inr ⟨n0, hmem, hid, hown⟩
        refine ⟨?_, ?_, ?_⟩ <;>
          · refine iff_of_true ?_ hrhsT
            simp [get_note, update_note, delete_note, hfind, hown]
  refine ⟨H, ?_⟩
  intro n hn hnid hno
  exact ⟨H.1.mpr (Or.inr ⟨n, hn, hnid, hno⟩),
    H.2.1.mpr (Or.inr ⟨n, hn, hnid, hno⟩),
    H.2.2.mpr (Or.inr ⟨n, hn, hnid, hno⟩)⟩

/-- Witness for C7: user B gets NotFound from get, update and delete on user
    A's note. -/
theorem notes_ownership_spec_witness :
    get_note dbNote readerB 4 = .error .notFound
    ∧ update_note dbNote readerB 4 "x" 1 = .error .notFound
    ∧ delete_note dbNote readerB 4 = .error .notFound :=
  (notes_ownership_spec dbNote readerB 4 "x" 1 (by decide)).2
    noteA (by decide) rfl (by decide)

/-- C9: recipe listing returns only public recipes, ordered by creation time
    descending, at most `limit` of them after skipping `offset`; with
    `limit = 1, offset = 1` over three public recipes it returns exactly the
    second-most-recent one. -/
theorem list_recipes_public_sorted_paginated (db : DB) (limit offset : Nat)
    (hlo : 1 ≤ limit) (hhi : limit ≤ 200) :
    (∀ r ∈ list_recipes db limit offset, r ∈ db.recipes ∧ r.is_public = true)
    ∧ (list_recipes db limit offset).length ≤ limit
    ∧ List.Sorted createdDesc (list_recipes db limit offset)
    ∧ list_recipes dbThreePublic 1 1 = [plainRecipe 2 20] := by
  have hsub : (list_recipes db limit offset).Sublist
      (sortByCreatedDesc (db.recipes.filter (fun r => r.is_public))) := by
    unfold list_recipes
    exact (List.take_sublist _ _).trans (List.drop_sublist _ _)
  refine ⟨?_, ?_, ?_, by decide⟩
  · intro r hr
    have hr2 : r ∈ sortByCreatedDesc (db.recipes.filter (fun r => r.is_public)) :=
      List.Sublist.mem hr hsub
    rw [sortByCreatedDesc, List.mem_insertionSort] at hr2
    have := List.mem_filter.mp hr2
    exact ⟨this.1, this.2⟩
  · exact List.length_take_le _ _
  · exact List.Pairwise.sublist hsub
      (List.sorted_insertionSort createdDesc _)

/-- Witness for C9: `limit = 1, offset = 1` over the three public recipes
    yields exactly the one created at time 20. -/
theorem list_recipes_public_sorted_paginated_witness :
    list_recipes dbThreePublic 1 1 = [plainRecipe 2 20] :=
  (list_recipes_public_sorted_paginated dbThreePublic 1 1
    (by decide) (by decide)).2.2.2

/-- C10: a successful note update rewrites only the target note's `content`
    and `updated_at`; its id, owner, recipe and creation time are kept, every
    other note is kept as-is, and the users, recipes, recipe_ingredients and
    favorites tables are untouched. -/
theorem update_note_frame (db : DB) (user : User) (nid : Nat)
    (content : String) (now : Nat)
    (hids : (db.notes.map (fun n => n.id)).Nodup)
    (n : Note) (hn : n ∈ db.notes) (hid : n.id = nid) (hown : n.user_id = user.id) :
    ∃ n2 db2, update_note db user nid content now = .ok (n2, db2)
      ∧ n2.id = n.id ∧ n2.user_id = n.user_id ∧ n2.recipe_id = n.recipe_id
      ∧ n2.created_at = n.created_at ∧ n2.content = content ∧ n2.updated_at = now
      ∧ db2.users = db.users ∧ db2.recipes = db.recipes
      ∧ db2.recipe_ingredients = db.recipe_ingredients ∧ db2.favorites = db.favorites
      ∧ db2.notes.map (fun m => m.id) = db.notes.map (fun m => m.id)
      ∧ (∀ m ∈ db.notes, ¬m.id = nid → m ∈ db2.notes)
      ∧ (∀ m ∈ db2.notes, ¬m.id = nid → m ∈ db.notes) := by
  have hfind : db.notes.find? (fun m => m.id == nid) = some n :=
    find?_key_of_mem (fun m => m.id) db.notes hids n hn nid hid
  refine ⟨{ n with content := content, updated_at := now },
    { db with notes := db.notes.map (fun m =>
        if m.id == nid then { n with content := content, updated_at := now } else m) },
    ?_, rfl, rfl, rfl, rfl, rfl, rfl, rfl, rfl, rfl, rfl, ?_, ?_, ?_⟩
  · unfold update_note
    rw [hfind]
    simp [hown]
  · rw [List.map_map]
    refine List.map_congr_left ?_
    intro m hm
    by_cases hm2 : m.id = nid
    · simp [hm2, hid]
    · simp [hm2]
  · intro m hm hm2
    refine List.mem_map.mpr ⟨m, hm, ?_⟩
    simp [hm2]
  · intro m hm hm2
    obtain ⟨m0, hm0, heq⟩ := List.mem_map.mp hm
    by_cases hm3 : m0.id = nid
    · exfalso
      rw [if_pos (by simp [hm3])] at heq
      apply hm2
      rw [← heq, hid]
    · rw [if_neg (by simp [hm3])] at heq
      exact heq ▸ hm0

/-- Witness for C10: updating `ownerA`'s note keeps its identity fields and
    the other tables, changing only content and `updated_at`. -/
theorem update_note_frame_witness :
    ∃ n2 db2, update_note dbNote ownerA 4 "new" 2 = .ok (n2, db2)
      ∧ n2.content = "new" ∧ n2.recipe_id = noteA.recipe_id
      ∧ db2.users = dbNote.users ∧ db2.favorites = dbNote.favorites := by
  obtain ⟨n2, db2, hok, _, _, hrid, _, hcon, _, hus, _, _, hfav, _, _, _⟩ :=
    update_note_frame dbNote ownerA 4 "new" 2 (by decide) noteA (by decide) rfl rfl
  exact ⟨n2, db2, hok, hcon, hrid, hus, hfav⟩

/-- C1: with a nonempty retained token list and pagination wide enough to
    keep the whole result, the ingredient search returns a recipe exactly
    when it is a public stored recipe every one of whose (deduplicated)
    normalized requested terms occurs as the lowered name of one of its
    ingredient rows — AND semantics, with the required count taken after
    deduplication; a recipe matching only some terms is excluded.  Term
    matching is the code's: the stored name is lowered but not trimmed. -/
theorem search_requires_all_terms (db : DB) (q : String) (limit offset : Nat)
    (r : Recipe) (hoff : offset = 0) (hlim : db.recipes.length ≤ limit)
    (hraw : ¬rawTokens q = []) :
    r ∈ search_recipes_by_ingredients db q limit offset ↔
      r ∈ db.recipes ∧ r.is_public = true ∧
        ∀ t ∈ (rawTokens q).map _normalize_ingredient,
          ∃ i ∈ db.recipe_ingredients, i.recipe_id = r.id ∧ pyLower i.name = t := by
  subst hoff
  have hne : ¬(rawTokens q).isEmpty = true := by
    simpa [List.isEmpty_iff] using hraw
  simp only [search_recipes_by_ingredients]
  rw [if_neg hne, List.drop_zero,
    List.take_of_length_le
      (by rw [sortByCreatedDesc, List.length_insertionSort]
          exact le_trans (List.length_filter_le _ _) hlim),
    sortByCreatedDesc, List.mem_insertionSort, List.mem_filter]
  simp only [Bool.and_eq_true]
  constructor
  · rintro ⟨hmem, hhav, hpub⟩
    exact ⟨hmem, hpub,
      (havingClause_iff db ((rawTokens q).map _normalize_ingredient) r.id).mp hhav⟩
  · rintro ⟨hmem, hpub, hall⟩
    exact ⟨hmem,
      (havingClause_iff db ((rawTokens q).map _normalize_ingredient) r.id).mpr hall, hpub⟩

/-- Witness for C1: searching `"Tomato, onion"` returns the salad recipe,
    every requested term being present among its ingredients. -/
theorem search_requires_all_terms_witness :
    plainRecipe 1 10 ∈ search_recipes_by_ingredients dbSalad "Tomato, onion" 50 0 :=
  (search_requires_all_terms dbSalad "Tomato, onion" 50 0 (plainRecipe 1 10)
    rfl (by decide) (by decide)).mpr (by decide)

end RecipeHub
